import Mathlib

/-!
Verification of the LingoPulse conversation-analysis engine
(`src/LingoPulse/src/services/AnalysisService.js`) against its
natural-language specification.

The JavaScript service is shallowly embedded: JS numbers are modelled by `ℚ`
(the algorithm only uses +, -, *, /, min, max, abs, round); JS `NaN` values
(arising from 0/0) and thrown `TypeError`s are modelled by `Option`/`Except`;
JS arrays are `List`s; JS objects used as string-keyed maps are association
lists preserving insertion order.  Imperative `forEach` loops that push onto
arrays are embedded as index-carrying structural loops over the message list.
-/

/-- One conversation turn: `{ speaker, content, timestamp }`. -/
structure Message where
  speaker : String
  content : String
  timestamp : String
deriving Repr, DecidableEq, Inhabited

/-- Model of JS `String.prototype.toLowerCase` (ASCII case folding applied
per character; the lexicons are Chinese and unaffected by case folding). -/
def jsToLower (s : String) : String :=
  String.mk (s.data.map Char.toLower)

/-- Model of JS `str.substring(0, e)`: the first `e` characters (UTF-16 units
in JS; code points here — identical on all material in this development). -/
def jsSubstringTo (s : String) (e : Nat) : String :=
  String.mk (s.data.take e)

/-- Helper: `substrAt needle l` is true when `needle` occurs contiguously in `l`. -/
def substrAt : List Char → List Char → Bool
  | needle, [] => needle.isEmpty
  | needle, c :: rest => needle.isPrefixOf (c :: rest) || substrAt needle rest

/-- Model of JS `haystack.includes(needle)`: substring containment. -/
def jsIncludes (haystack needle : String) : Bool :=
  substrAt needle.data haystack.data

/-- Model of JS `Math.round`: round half toward positive infinity. -/
def roundJs (q : ℚ) : ℤ :=
  ⌊q + 1/2⌋

/-- Model of JS `Array.prototype.reduce` with no initial value: `none` on the
empty array models the thrown
`TypeError: Reduce of empty array with no initial value`. -/
def reduce1 {α : Type} (f : α → α → α) : List α → Option α
  | [] => none
  | x :: xs => some (xs.foldl f x)

/-- Worker for `jsSplitWs`.  `skipping` records whether we are inside a
whitespace run whose leading separator has already been emitted. -/
def splitWsGo : List Char → List Char → Bool → List String
  | [], acc, _ => [String.mk acc.reverse]
  | c :: rest, acc, skipping =>
    if c.isWhitespace then
      if skipping then splitWsGo rest [] true
      else String.mk acc.reverse :: splitWsGo rest [] true
    else splitWsGo rest (c :: acc) false

/-- Model of JS `str.split(/\s+/)`: split on maximal whitespace runs.  As in
JS, the result is never empty: `"".split(/\s+/)` is `[""]`, and leading or
trailing whitespace contributes an empty-string part. -/
def jsSplitWs (s : String) : List String :=
  splitWsGo s.data [] false

/-- Embedding of `this.topicPatterns`: topic category → trigger phrases. -/
def topicPatterns : List (String × List String) :=
  [("业务讨论", ["业务", "项目", "市场", "客户", "销售", "目标"]),
   ("技术交流", ["代码", "系统", "架构", "技术", "开发", "实现"]),
   ("团队协作", ["团队", "合作", "协调", "沟通", "配合", "协作"]),
   ("决策规划", ["决定", "选择", "规划", "策略", "方案", "建议"]),
   ("问题解决", ["问题", "困难", "挑战", "解决", "处理", "方案"])]

/-- Embedding of `this.sentimentIndicators`: polarity bucket → indicator words, in the JS
object's insertion order (positive, negative, neutral). -/
def sentimentIndicators : List (String × List String) :=
  [("positive", ["很好", "优秀", "支持", "同意", "满意", "积极", "乐观"]),
   ("negative", ["问题", "困难", "担心", "不满意", "消极", "反对", "批评"]),
   ("neutral", ["了解", "明白", "讨论", "分析", "考虑", "评估"])]

/-- Embedding of `detectTopics(content)`: push every category one of whose trigger phrases
is a substring of `content`; fall back to the singleton `["一般讨论"]`. -/
def detectTopics (content : String) : List String :=
  let detected := topicPatterns.foldl
    (fun acc p => if p.2.any (fun pat => jsIncludes content pat) then acc ++ [p.1] else acc) []
  if detected.length > 0 then detected else ["一般讨论"]

/-- Embedding of `analyzeSentimentScore(content)`: case-fold, split on whitespace, count
exact token matches per polarity bucket, score `0.3` per positive match and
`-0.3` per negative match, clamp to `[-1, 1]`. -/
def analyzeSentimentScore (content : String) : ℚ :=
  let words := jsSplitWs (jsToLower content)
  let score := sentimentIndicators.foldl
    (fun sc p =>
      let hits : ℚ := (words.filter (fun w => p.2.contains w)).length
      if p.1 = "positive" then sc + hits * (3/10)
      else if p.1 = "negative" then sc - hits * (3/10)
      else sc) 0
  max (-1) (min 1 score)

/-- Embedding of `calculateSimilarity(text1, text2)`: Jaccard ratio of the deduplicated
lowercase whitespace-token lists (JS `Set`s; only sizes matter below). -/
def calculateSimilarity (text1 text2 : String) : ℚ :=
  let words1 := (jsSplitWs (jsToLower text1)).dedup
  let words2 := (jsSplitWs (jsToLower text2)).dedup
  let intersection := words1.filter (fun w => decide (w ∈ words2))
  let union := (words1 ++ words2).dedup
  (intersection.length : ℚ) / (union.length : ℚ)

/-- Embedding of `calculateEmotionalVariance(sentiments)`: `min(1, population variance)`,
with an explicit guard returning `0` for the empty list. -/
def calculateEmotionalVariance (sentiments : List ℚ) : ℚ :=
  if sentiments.length = 0 then 0
  else
    let mean := sentiments.sum / (sentiments.length : ℚ)
    let variance := (sentiments.map (fun s => (s - mean) ^ 2)).sum / (sentiments.length : ℚ)
    min 1 variance

/-- Embedding of `generateTurningPointEvent(content, sentimentChange)`. -/
def generateTurningPointEvent (content : String) (sentimentChange : ℚ) : String :=
  if sentimentChange > 1/2 then
    "情感转折：变得更加积极 \"" ++ jsSubstringTo content 30 ++ "...\""
  else
    "情感转折：出现负面情绪 \"" ++ jsSubstringTo content 30 ++ "...\""

/-- Embedding of `generateSentimentInsights(distribution, variance)`. -/
def generateSentimentInsights (pos neu neg : Nat) (variance : ℚ) : List String :=
  let insights : List String :=
    if pos > neg + neu then ["整体对话氛围积极正面"]
    else if neg > pos + neu then ["对话中存在较多负面情绪，需要关注"]
    else []
  if variance > 1/2 then insights ++ ["情感波动较大，需要稳定情绪管理"]
  else insights ++ ["情感相对稳定，对话质量较好"]

/-- Embedding of `containsKeyKeywords(content)`. -/
def containsKeyKeywords (content : String) : Bool :=
  ["重要", "关键", "核心", "主要", "显著"].any (fun k => jsIncludes content k)

/-- Embedding of `hasClearStructure(content)`. -/
def hasClearStructure (content : String) : Bool :=
  ["首先", "其次", "最后", "第一", "第二", "第三"].any (fun k => jsIncludes content k)

/-- Embedding of `calculatePointStrength(content)`: `(min(1,len/200) + kw*0.5 + st*0.3) / 1.8`. -/
def calculatePointStrength (content : String) : ℚ :=
  let lengthScore := min 1 ((content.length : ℚ) / 200)
  let keywordScore : ℚ := if containsKeyKeywords content then 1/2 else 0
  let structureScore : ℚ := if hasClearStructure content then 3/10 else 0
  (lengthScore + keywordScore + structureScore) / (9/5)

/-- Embedding of `analyzeOpinionType(content)`: lexical vote, `+1` / `-1` / `0`. -/
def analyzeOpinionType (content : String) : ℤ :=
  let posCount := (["支持", "同意", "赞成", "很好"].filter (fun w => jsIncludes content w)).length
  let negCount := (["反对", "不同意", "不行", "问题"].filter (fun w => jsIncludes content w)).length
  if posCount > negCount then 1 else if negCount > posCount then -1 else 0

/-- Embedding of `calculateConsensusLevel(dialogue, content)`: `min(1, similar/3)` where
the filter runs over the whole dialogue (including the candidate's own turn). -/
def calculateConsensusLevel (dialogue : List Message) (content : String) : ℚ :=
  let similarMessages := dialogue.filter
    (fun msg => decide (calculateSimilarity msg.content content > 3/5))
  min 1 ((similarMessages.length : ℚ) / 3)

/-- Embedding of `extractEvidence(content)`: evidentiary marker phrases found in the text. -/
def extractEvidence (content : String) : List String :=
  ["根据", "数据显示", "研究表明", "证据表明", "统计"].filter
    (fun pat => jsIncludes content pat)

/-- Embedding of `extractMainTopic(content)`. -/
def extractMainTopic (content : String) : String :=
  let topics := detectTopics content
  if topics.length > 0 then topics.headD "一般话题" else "一般话题"

/-- Embedding of `hasEvidence(content)`. -/
def hasEvidence (content : String) : Bool :=
  (extractEvidence content).length > 0

/-- One entry of the `sentimentTrend` array. -/
structure TrendEntry where
  timeIndex : Nat
  sentiment : ℚ
  speaker : String
  timestamp : String
deriving Repr, DecidableEq, Inhabited

/-- One entry of a participant's sentiment history. -/
structure PSEntry where
  timeIndex : Nat
  sentiment : ℚ
  content : String
deriving Repr, DecidableEq, Inhabited

/-- One detected sentiment turning point. -/
structure TurningPoint where
  timeIndex : Nat
  timestamp : String
  event : String
  impact : ℚ
  recovery : String
deriving Repr, DecidableEq, Inhabited

/-- One entry of the returned `sentimentDistribution` pie list. -/
structure DistEntry where
  name : String
  value : Nat
  color : String
deriving Repr, DecidableEq, Inhabited

/-- Mutable state of the `dialogue.forEach` loop in `analyzeSentiment`. -/
structure SentState where
  trend : List TrendEntry
  pos : Nat
  neu : Nat
  neg : Nat
  tps : List TurningPoint
  ps : List (String × List PSEntry)
deriving Repr, DecidableEq, Inhabited

/-- Result object of `analyzeSentiment`.  `healthScore` is `none` when the JS
computation yields `NaN` (division of the distribution counts by a zero
`totalMessages`). -/
structure SentimentResult where
  sentimentTrend : List TrendEntry
  sentimentDistribution : List DistEntry
  turningPoints : List TurningPoint
  participantsSentiment : List (String × List PSEntry)
  healthScore : Option ℤ
  healthLevel : String
  insights : List String
deriving Repr, DecidableEq

/-- JS `participantsSentiment[speaker].push(entry)` with on-demand creation of
the per-speaker array, on an insertion-ordered association list. -/
def pushAssoc (l : List (String × List PSEntry)) (k : String) (e : PSEntry) :
    List (String × List PSEntry) :=
  if l.any (fun p => p.1 == k) then
    l.map (fun p => if p.1 == k then (p.1, p.2 ++ [e]) else p)
  else l ++ [(k, [e])]

/-- Body of the `dialogue.forEach((message, index) => ...)` loop in
`analyzeSentiment`, acting on the loop state. -/
def sentStep (st : SentState) (i : Nat) (m : Message) : SentState :=
  let sentiment := analyzeSentimentScore m.content
  let pos' := if sentiment > 3/10 then st.pos + 1 else st.pos
  let neg' := if sentiment > 3/10 then st.neg
              else if sentiment < -(3/10) then st.neg + 1 else st.neg
  let neu' := if sentiment > 3/10 then st.neu
              else if sentiment < -(3/10) then st.neu else st.neu + 1
  let ps' := pushAssoc st.ps m.speaker ⟨i, sentiment, jsSubstringTo m.content 50⟩
  let trend' := st.trend ++ [⟨i, sentiment, m.speaker, m.timestamp⟩]
  let tps' :=
    if i > 0 then
      let prevSentiment := (trend'.getD (i - 1) default).sentiment
      let change := sentiment - prevSentiment
      if |change| > 1/2 then
        st.tps ++ [⟨i, m.timestamp, generateTurningPointEvent m.content change, |change|,
                    if sentiment > 0 then "积极" else "消极"⟩]
      else st.tps
    else st.tps
  ⟨trend', pos', neu', neg', tps', ps'⟩

/-- The `forEach` loop of `analyzeSentiment` as an index-carrying recursion. -/
def sentLoop : List Message → Nat → SentState → SentState
  | [], _, st => st
  | m :: rest, i, st => sentLoop rest (i + 1) (sentStep st i m)

/-- Embedding of `analyzeSentiment(dialogue)`.  The health score is computed from the
distribution counts, the negativity ratio and the variance of the full trend;
for an empty dialogue the two ratios are JS `NaN` (0/0), which propagates to a
`NaN` health score, modelled by `none` (and `NaN > 70` / `NaN > 50` are false,
so the health level falls through to the last label). -/
def analyzeSentiment (dialogue : List Message) : SentimentResult :=
  let st := sentLoop dialogue 0 ⟨[], 0, 0, 0, [], []⟩
  let totalMessages := dialogue.length
  let emotionalVariance := calculateEmotionalVariance (st.trend.map (·.sentiment))
  let hq : Option ℚ :=
    if totalMessages = 0 then none
    else
      let positivity := (st.pos : ℚ) / (totalMessages : ℚ)
      let negativity := (st.neg : ℚ) / (totalMessages : ℚ)
      some (max 0 (min 100
        ((positivity * 40 + (1 - negativity) * 30 + (1 - emotionalVariance) * 30) * 100)))
  { sentimentTrend := st.trend.take 50
    sentimentDistribution :=
      [⟨"积极", st.pos, "#4caf50"⟩, ⟨"中性", st.neu, "#ff9800"⟩, ⟨"消极", st.neg, "#f44336"⟩]
    turningPoints := st.tps.take 8
    participantsSentiment := st.ps
    healthScore := hq.map roundJs
    healthLevel :=
      match hq with
      | none => "需关注"
      | some h => if h > 70 then "良好" else if h > 50 then "一般" else "需关注"
    insights := generateSentimentInsights st.pos st.neu st.neg emotionalVariance }

/-- Per-turn sentiment scores of a dialogue, in turn order. -/
def scoresOf (d : List Message) : List ℚ :=
  d.map (fun m => analyzeSentimentScore m.content)

/-- Declarative sentiment trend, entry `j` carrying index `i + j`. -/
def trendAux : List Message → Nat → List TrendEntry
  | [], _ => []
  | m :: rest, i =>
    ⟨i, analyzeSentimentScore m.content, m.speaker, m.timestamp⟩ :: trendAux rest (i + 1)

/-- Declarative sentiment trend of the whole dialogue. -/
def fullTrend (d : List Message) : List TrendEntry :=
  trendAux d 0

/-- The turning-point condition of the specification at turn `i`:
`i > 0` and `|score[i] - score[i-1]| > 0.5`. -/
def tpCond (s : List ℚ) (i : Nat) : Bool :=
  decide (0 < i) && decide (|s.getD i 0 - s.getD (i - 1) 0| > 1/2)

/-- The turning-point record the specification prescribes for turn `i`:
impact `|score[i] - score[i-1]|`, a direction label from the sign of
`score[i]`, and a templated description embedding the first 30 characters of
turn `i`'s content. -/
def tpAt (d : List Message) (i : Nat) : TurningPoint :=
  ⟨i, (d.getD i default).timestamp,
   generateTurningPointEvent (d.getD i default).content
     ((scoresOf d).getD i 0 - (scoresOf d).getD (i - 1) 0),
   |(scoresOf d).getD i 0 - (scoresOf d).getD (i - 1) 0|,
   if (scoresOf d).getD i 0 > 0 then "积极" else "消极"⟩

/-- All turning points of a dialogue, in order of detection. -/
def declTurningPoints (d : List Message) : List TurningPoint :=
  ((List.range d.length).filter (tpCond (scoresOf d))).map (tpAt d)

/-- Number of turns classified positive (`score > 0.3`). -/
def posCount (d : List Message) : Nat :=
  d.countP (fun m => decide (analyzeSentimentScore m.content > 3/10))

/-- Number of turns classified negative (`score < -0.3`). -/
def negCount (d : List Message) : Nat :=
  d.countP (fun m => decide (analyzeSentimentScore m.content < -(3/10)))

/-- Number of turns classified neutral (neither positive nor negative). -/
def neuCount (d : List Message) : Nat :=
  d.countP (fun m => decide (¬ analyzeSentimentScore m.content > 3/10 ∧
                             ¬ analyzeSentimentScore m.content < -(3/10)))

/-- Declarative per-participant sentiment histories. -/
def psAux : List Message → Nat → List (String × List PSEntry) → List (String × List PSEntry)
  | [], _, acc => acc
  | m :: rest, i, acc =>
    psAux rest (i + 1)
      (pushAssoc acc m.speaker ⟨i, analyzeSentimentScore m.content, jsSubstringTo m.content 50⟩)

/-- Declarative description of the state reached by the `analyzeSentiment`
loop after scanning `d`. -/
def declSentState (d : List Message) : SentState :=
  ⟨fullTrend d, posCount d, neuCount d, negCount d, declTurningPoints d, psAux d 0 []⟩

/-- The set of lowercase whitespace-delimited tokens of a text. -/
def tokenSet (s : String) : Finset String :=
  (jsSplitWs (jsToLower s)).toFinset

/-- The split worker never returns an empty list. -/
theorem splitWsGo_ne_nil (cs : List Char) (acc : List Char) (b : Bool) :
    splitWsGo cs acc b ≠ [] := by
  induction cs generalizing acc b with
  | nil => simp [splitWsGo]
  | cons c rest ih =>
    by_cases hw : c.isWhitespace <;> by_cases hb : b <;>
      simp [splitWsGo, hw, hb, ih]

/-- JS `split(/\s+/)` never returns an empty array. -/
theorem jsSplitWs_ne_nil (s : String) : jsSplitWs s ≠ [] :=
  splitWsGo_ne_nil s.data [] false

/-- Every text has at least one token (possibly the empty token). -/
theorem tokenSet_nonempty (s : String) : (tokenSet s).Nonempty := by
  obtain ⟨x, hx⟩ := List.exists_mem_of_ne_nil _ (jsSplitWs_ne_nil (jsToLower s))
  exact ⟨x, List.mem_toFinset.mpr hx⟩

theorem dedup_toFinset {α : Type} [DecidableEq α] (l : List α) :
    l.dedup.toFinset = l.toFinset := by
  ext x; simp [List.mem_dedup]

/-- The function `calculateSimilarity` computes the Jaccard coefficient of the two token
sets. -/
theorem calculateSimilarity_eq_jaccard (a b : String) :
    calculateSimilarity a b =
      ((tokenSet a ∩ tokenSet b).card : ℚ) / ((tokenSet a ∪ tokenSet b).card : ℚ) := by
  unfold calculateSimilarity tokenSet
  set w1 := (jsSplitWs (jsToLower a)).dedup with hw1
  set w2 := (jsSplitWs (jsToLower b)).dedup with hw2
  have hnd : (w1.filter (fun w => decide (w ∈ w2))).Nodup :=
    (List.nodup_dedup _).filter _
  have hinter : (w1.filter (fun w => decide (w ∈ w2))).length =
      ((jsSplitWs (jsToLower a)).toFinset ∩ (jsSplitWs (jsToLower b)).toFinset).card := by
    rw [← List.toFinset_card_of_nodup hnd, List.toFinset_filter]
    rw [hw1, dedup_toFinset]
    have : ((jsSplitWs (jsToLower a)).toFinset.filter fun w => decide (w ∈ w2)) =
        ((jsSplitWs (jsToLower a)).toFinset.filter fun w => w ∈ (jsSplitWs (jsToLower b)).toFinset) := by
      apply Finset.filter_congr
      intro x _
      simp [hw2, List.mem_dedup]
    rw [this, Finset.filter_mem_eq_inter]
  have hunion : ((w1 ++ w2).dedup).length =
      ((jsSplitWs (jsToLower a)).toFinset ∪ (jsSplitWs (jsToLower b)).toFinset).card := by
    rw [← List.card_toFinset, List.toFinset_append, hw1, hw2, dedup_toFinset, dedup_toFinset]
  show ((w1.filter (fun w => decide (w ∈ w2))).length : ℚ) / (((w1 ++ w2).dedup).length : ℚ) = _
  rw [hinter, hunion]

/-- Self-similarity is `1` for every text, the empty text included: the token
set is never empty, so the Jaccard ratio is `|T|/|T| = 1`. -/
theorem calculateSimilarity_self (a : String) : calculateSimilarity a a = 1 := by
  rw [calculateSimilarity_eq_jaccard, Finset.inter_self, Finset.union_self]
  have h : (tokenSet a).card ≠ 0 := Finset.card_ne_zero_of_mem (tokenSet_nonempty a).choose_spec
  rw [div_self (by exact_mod_cast h)]

/-- Claim C10 (confirmed): `similarity` is symmetric for all text pairs, and
`similarity(a, a) = 1` for every non-empty text `a`. -/
theorem similarity_symm_and_self :
    (∀ a b : String, calculateSimilarity a b = calculateSimilarity b a) ∧
    (∀ a : String, a ≠ "" → calculateSimilarity a a = 1) := by
  constructor
  · intro a b
    rw [calculateSimilarity_eq_jaccard, calculateSimilarity_eq_jaccard,
      Finset.inter_comm, Finset.union_comm]
  · intro a _
    exact calculateSimilarity_self a

/-- Witness for claim C10 at the concrete non-empty text `"x"`. -/
theorem similarity_symm_and_self_witness :
    ("x" : String) ≠ "" ∧ calculateSimilarity "x" "x" = 1 :=
  ⟨by decide, similarity_symm_and_self.2 "x" (by decide)⟩

/-- Counterexample for claim C6: the claim says `similarity` returns `0` when
both texts reduce to empty token sets (e.g. both empty strings), but JS
`"".split(/\s+/)` is `[""]`, so both token sets are `{""}` and the code
returns `1`. -/
theorem similarity_empty_empty_eq_one :
    calculateSimilarity "" "" = 1 ∧ calculateSimilarity "" "" ≠ 0 := by
  constructor
  · exact calculateSimilarity_self ""
  · rw [calculateSimilarity_self ""]; norm_num

/-- Claim C6 as amended (the code never produces an empty token set — the
empty text tokenizes to the singleton set containing the empty token — so
`similarity` is the Jaccard coefficient of the two token sets, always lies in
`[0, 1]`, and equals `1`, not `0`, when both inputs are empty strings). -/
theorem similarity_jaccard_and_bounds :
    (∀ a b : String,
      calculateSimilarity a b =
        ((tokenSet a ∩ tokenSet b).card : ℚ) / ((tokenSet a ∪ tokenSet b).card : ℚ) ∧
      0 ≤ calculateSimilarity a b ∧ calculateSimilarity a b ≤ 1) ∧
    calculateSimilarity "" "" = 1 := by
  refine ⟨fun a b => ⟨calculateSimilarity_eq_jaccard a b, ?_, ?_⟩, calculateSimilarity_self ""⟩
  · rw [calculateSimilarity_eq_jaccard]
    exact div_nonneg (by positivity) (by positivity)
  · rw [calculateSimilarity_eq_jaccard]
    have hle : (tokenSet a ∩ tokenSet b).card ≤ (tokenSet a ∪ tokenSet b).card :=
      Finset.card_le_card (Finset.Subset.trans Finset.inter_subset_left
        Finset.subset_union_left)
    have hpos : 0 < (tokenSet a ∪ tokenSet b).card := by
      obtain ⟨x, hx⟩ := tokenSet_nonempty a
      exact Finset.card_pos.mpr ⟨x, Finset.mem_union_left _ hx⟩
    rw [div_le_one (by exact_mod_cast hpos)]
    exact_mod_cast hle

/-- Tokens of `content` that exactly equal a positive-lexicon entry (with
multiplicity). -/
def posMatchCount (content : String) : Nat :=
  ((jsSplitWs (jsToLower content)).filter
    (fun w => decide (w ∈ ["很好", "优秀", "支持", "同意", "满意", "积极", "乐观"]))).length

/-- Tokens of `content` that exactly equal a negative-lexicon entry (with
multiplicity). -/
def negMatchCount (content : String) : Nat :=
  ((jsSplitWs (jsToLower content)).filter
    (fun w => decide (w ∈ ["问题", "困难", "担心", "不满意", "消极", "反对", "批评"]))).length

/-- The sentiment score in closed form: the neutral bucket drops out of the
bucket fold. -/
theorem sentimentScore_eq_clamp (content : String) :
    analyzeSentimentScore content =
      max (-1) (min 1
        ((3/10) * (posMatchCount content : ℚ) - (3/10) * (negMatchCount content : ℚ))) := by
  have hfilter : ∀ (lex : List String),
      (jsSplitWs (jsToLower content)).filter (fun w => lex.contains w) =
      (jsSplitWs (jsToLower content)).filter (fun w => decide (w ∈ lex)) := by
    intro lex
    exact List.filter_congr (fun w _ => List.elem_eq_mem w lex)
  unfold analyzeSentimentScore sentimentIndicators posMatchCount negMatchCount
  simp only [List.foldl, String.reduceEq, reduceIte]
  rw [hfilter, hfilter]
  ring_nf

/-- Claim C7 (confirmed): the per-turn sentiment score is
`clamp(0.3*positiveMatches - 0.3*negativeMatches, -1, 1)` where the match
counts are over the lowercase whitespace-delimited tokens that exactly equal
an entry of the positive resp. negative lexicon bucket; the neutral bucket
never affects the score, and the result lies in `[-1, 1]`. -/
theorem sentimentScore_formula (content : String) :
    analyzeSentimentScore content =
      max (-1) (min 1
        ((3/10) * (((jsSplitWs (jsToLower content)).filter
            (fun w => decide (w ∈ ["很好", "优秀", "支持", "同意", "满意", "积极", "乐观"]))).length : ℚ)
         - (3/10) * (((jsSplitWs (jsToLower content)).filter
            (fun w => decide (w ∈ ["问题", "困难", "担心", "不满意", "消极", "反对", "批评"]))).length : ℚ))) ∧
    -1 ≤ analyzeSentimentScore content ∧ analyzeSentimentScore content ≤ 1 := by
  refine ⟨sentimentScore_eq_clamp content, le_max_left _ _, ?_⟩
  rw [sentimentScore_eq_clamp]
  exact max_le (by norm_num) (min_le_left _ _)

theorem getD_append_lt {α : Type} (l m : List α) (x : α) (j : Nat) (h : j < l.length) :
    (l ++ m).getD j x = l.getD j x := by
  simp [List.getD, List.getElem?_append_left h]

theorem getD_append_self {α : Type} (l m : List α) (x : α) :
    (l ++ m).getD l.length x = m.getD 0 x := by
  simp [List.getD, List.getElem?_append_right (le_refl l.length)]

theorem scoresOf_append (l m : List Message) :
    scoresOf (l ++ m) = scoresOf l ++ scoresOf m := by
  simp [scoresOf]

theorem scoresOf_length (l : List Message) : (scoresOf l).length = l.length := by
  simp [scoresOf]

theorem trendAux_append (l : List Message) (m : Message) (i : Nat) :
    trendAux (l ++ [m]) i =
      trendAux l i ++
        [⟨i + l.length, analyzeSentimentScore m.content, m.speaker, m.timestamp⟩] := by
  induction l generalizing i with
  | nil => simp [trendAux]
  | cons x xs ih =>
    show (⟨i, analyzeSentimentScore x.content, x.speaker, x.timestamp⟩ : TrendEntry) ::
        trendAux (xs ++ [m]) (i + 1) = _
    rw [ih (i + 1)]
    show _ = (⟨i, analyzeSentimentScore x.content, x.speaker, x.timestamp⟩ : TrendEntry) ::
        (trendAux xs (i + 1) ++ [⟨i + (x :: xs).length, analyzeSentimentScore m.content,
          m.speaker, m.timestamp⟩])
    have h : i + 1 + xs.length = i + (x :: xs).length := by simp; omega
    rw [h]

theorem trendAux_length (l : List Message) (i : Nat) : (trendAux l i).length = l.length := by
  induction l generalizing i with
  | nil => rfl
  | cons x xs ih => simp [trendAux, ih]

theorem trendAux_getD_sentiment (l : List Message) (i j : Nat) (h : j < l.length) :
    ((trendAux l i).getD j default).sentiment = (scoresOf l).getD j 0 := by
  induction l generalizing i j with
  | nil => simp at h
  | cons x xs ih =>
    cases j with
    | zero => simp [trendAux, scoresOf]
    | succ j =>
      have hj : j < xs.length := by simpa using h
      simpa [trendAux, scoresOf, List.getD_cons_succ] using ih (i + 1) j hj

theorem psAux_append (l : List Message) (m : Message) (i : Nat)
    (acc : List (String × List PSEntry)) :
    psAux (l ++ [m]) i acc =
      pushAssoc (psAux l i acc) m.speaker
        ⟨i + l.length, analyzeSentimentScore m.content, jsSubstringTo m.content 50⟩ := by
  induction l generalizing i acc with
  | nil => simp [psAux]
  | cons x xs ih =>
    show psAux (xs ++ [m]) (i + 1)
        (pushAssoc acc x.speaker ⟨i, analyzeSentimentScore x.content,
          jsSubstringTo x.content 50⟩) = _
    rw [ih]
    have h : i + 1 + xs.length = i + (x :: xs).length := by simp; omega
    rw [h]
    rfl

theorem tpCond_append_lt (pre : List Message) (m : Message) (j : Nat) (h : j < pre.length) :
    tpCond (scoresOf (pre ++ [m])) j = tpCond (scoresOf pre) j := by
  unfold tpCond
  rw [scoresOf_append]
  rw [getD_append_lt (scoresOf pre) (scoresOf [m]) 0 j (by simpa [scoresOf] using h)]
  rw [getD_append_lt (scoresOf pre) (scoresOf [m]) 0 (j - 1)
    (by simp only [scoresOf, List.length_map]; omega)]

theorem tpAt_append_lt (pre : List Message) (m : Message) (j : Nat) (h : j < pre.length) :
    tpAt (pre ++ [m]) j = tpAt pre j := by
  unfold tpAt
  rw [scoresOf_append]
  rw [getD_append_lt (scoresOf pre) (scoresOf [m]) 0 j (by simpa [scoresOf] using h)]
  rw [getD_append_lt (scoresOf pre) (scoresOf [m]) 0 (j - 1)
    (by simp only [scoresOf, List.length_map]; omega)]
  rw [getD_append_lt pre [m] default j h]

theorem declTurningPoints_append (pre : List Message) (m : Message) :
    declTurningPoints (pre ++ [m]) =
      declTurningPoints pre ++
        (if tpCond (scoresOf (pre ++ [m])) pre.length then
          [tpAt (pre ++ [m]) pre.length] else []) := by
  unfold declTurningPoints
  have hlen : (pre ++ [m]).length = pre.length + 1 := by simp
  rw [hlen, List.range_succ, List.filter_append, List.map_append]
  congr 1
  · have hfc : (List.range pre.length).filter (tpCond (scoresOf (pre ++ [m]))) =
        (List.range pre.length).filter (tpCond (scoresOf pre)) := by
      apply List.filter_congr
      intro j hj
      exact tpCond_append_lt pre m j (List.mem_range.mp hj)
    rw [hfc]
    apply List.map_congr_left
    intro j hj
    have hjlt : j < pre.length := List.mem_range.mp (List.mem_of_mem_filter hj)
    exact tpAt_append_lt pre m j hjlt
  · by_cases hc : tpCond (scoresOf (pre ++ [m])) pre.length = true
    · simp [List.filter, hc]
    · simp [List.filter, hc]

theorem fullTrend_append (pre : List Message) (m : Message) :
    fullTrend pre ++
        [⟨pre.length, analyzeSentimentScore m.content, m.speaker, m.timestamp⟩] =
      fullTrend (pre ++ [m]) := by
  unfold fullTrend
  rw [trendAux_append]
  simp

theorem scoresOf_getD_concat (pre : List Message) (m : Message) :
    (scoresOf (pre ++ [m])).getD pre.length 0 = analyzeSentimentScore m.content := by
  rw [scoresOf_append]
  have h : pre.length = (scoresOf pre).length := (scoresOf_length pre).symm
  rw [h, getD_append_self]
  rfl

theorem getD_concat_msg (pre : List Message) (m : Message) :
    (pre ++ [m]).getD pre.length default = m := by
  rw [getD_append_self]
  rfl

theorem sentStep_decl (pre : List Message) (m : Message) :
    sentStep (declSentState pre) pre.length m = declSentState (pre ++ [m]) := by
  have htr := fullTrend_append pre m
  have hsn := scoresOf_getD_concat pre m
  have hms := getD_concat_msg pre m
  unfold sentStep declSentState
  dsimp only
  rw [SentState.mk.injEq]
  refine ⟨?_, ?_, ?_, ?_, ?_, ?_⟩
  · exact htr
  · -- positive count
    unfold posCount
    rw [List.countP_append]
    by_cases hc : analyzeSentimentScore m.content > 3/10 <;>
      simp [hc, List.countP_cons, List.countP_nil]
  · -- neutral count
    unfold neuCount
    rw [List.countP_append]
    by_cases h1 : analyzeSentimentScore m.content > 3/10
    · simp [h1, List.countP_cons, List.countP_nil]
    · by_cases h2 : analyzeSentimentScore m.content < -(3/10)
      · simp [h1, h2, List.countP_cons, List.countP_nil]
      · simp [h1, h2, List.countP_cons, List.countP_nil, not_lt.mp h1, not_lt.mp h2]
  · -- negative count
    unfold negCount
    rw [List.countP_append]
    by_cases h1 : analyzeSentimentScore m.content > 3/10
    · have h2 : ¬ analyzeSentimentScore m.content < -(3/10) := by
        intro h2
        have : (-(3/10) : ℚ) < 3/10 := by norm_num
        linarith
      simp [h1, h2, List.countP_cons, List.countP_nil]
    · by_cases h2 : analyzeSentimentScore m.content < -(3/10) <;>
        simp [h1, h2, List.countP_cons, List.countP_nil]
  · -- turning points
    rw [htr, declTurningPoints_append]
    by_cases h0 : 0 < pre.length
    · have hprev : ((fullTrend (pre ++ [m])).getD (pre.length - 1) default).sentiment =
          (scoresOf (pre ++ [m])).getD (pre.length - 1) 0 := by
        apply trendAux_getD_sentiment
        simp
        omega
      rw [hprev]
      unfold tpCond tpAt
      rw [hsn, hms]
      simp only [h0, if_true, decide_eq_true_eq, Bool.true_and,
        Bool.and_eq_true, gt_iff_lt]
      split_ifs with hΔ₁ hΔ₂ hΔ₃ <;> try simp_all
      all_goals linarith
    · have hpre : pre = [] := List.length_eq_zero.mp (by omega)
      subst hpre
      simp [tpCond]
  · -- participants sentiment
    rw [psAux_append]
    simp

theorem sentLoop_decl (rest : List Message) :
    ∀ pre : List Message,
      sentLoop rest pre.length (declSentState pre) = declSentState (pre ++ rest) := by
  induction rest with
  | nil => intro pre; simp [sentLoop]
  | cons m rest ih =>
    intro pre
    show sentLoop rest (pre.length + 1) (sentStep (declSentState pre) pre.length m) = _
    rw [sentStep_decl]
    have h := ih (pre ++ [m])
    rw [List.length_append] at h
    simpa using h

/-- The `analyzeSentiment` loop computes exactly the declarative state. -/
theorem sentLoop_eq_decl (d : List Message) :
    sentLoop d 0 ⟨[], 0, 0, 0, [], []⟩ = declSentState d := by
  have h := sentLoop_decl d []
  simpa [declSentState, fullTrend, trendAux, posCount, neuCount, negCount,
    declTurningPoints, psAux] using h

/-- Stable insertion of `x` in front of the first element whose key does not
exceed `x`'s. -/
def insertDescBy {α β : Type} [LinearOrder β] (key : α → β) (x : α) : List α → List α
  | [] => [x]
  | y :: ys => if key y ≤ key x then x :: y :: ys else y :: insertDescBy key x ys

/-- Model of the JS stable `sort((a, b) => key(b) - key(a))`: stable sort in
descending key order (insertion sort — any stable sort by the same key agrees
with the engine's TimSort). -/
def sortDescBy {α β : Type} [LinearOrder β] (key : α → β) (l : List α) : List α :=
  l.foldr (insertDescBy key) []

/-- Model of JS `q.toFixed(1)`: the numeric value rounded to one decimal
(the source formats it as a string; only the numeric value matters here). -/
def jsToFixed1 (q : ℚ) : ℚ :=
  (roundJs (q * 10) : ℚ) / 10

/-- One entry of the topic-distribution pie data. -/
structure PieEntry where
  name : String
  value : Nat
  percentage : ℚ
deriving Repr, DecidableEq, Inhabited

/-- One entry of the theme-evolution series. -/
structure EvoEntry where
  timePoint : Nat
  topic : String
  intensity : ℚ
deriving Repr, DecidableEq, Inhabited

/-- One theme transition (`from`/`to` in the source). -/
structure Transition where
  src : String
  dst : String
  frequency : Nat
  timestamp : String
deriving Repr, DecidableEq, Inhabited

/-- One key segment extracted by `analyzeTopics`. -/
structure KeySegment where
  id : Nat
  speaker : String
  timestamp : String
  topic : String
  snippet : String
  fullContent : String
deriving Repr, DecidableEq, Inhabited

/-- Summary of `analyzeTopics`.  `dominantTheme` is `none` exactly when the JS
`Object.keys(themeDistribution).reduce(...)` (no initial value) throws on an
empty distribution. -/
structure TopicsSummary where
  dominantTheme : Option String
  themeVariety : Nat
  avgSegmentLength : ℤ
deriving Repr, DecidableEq

/-- Result object of `analyzeTopics`. -/
structure TopicsResult where
  themeDistribution : List PieEntry
  themeEvolution : List EvoEntry
  themeTransitions : List Transition
  keySegments : List KeySegment
  summary : TopicsSummary
deriving Repr, DecidableEq

/-- Embedding of `themeDistribution[topic] = (themeDistribution[topic] || 0) + 1` on an
insertion-ordered association list. -/
def bumpDist (l : List (String × Nat)) (k : String) : List (String × Nat) :=
  if l.any (fun p => p.1 == k) then
    l.map (fun p => if p.1 == k then (p.1, p.2 + 1) else p)
  else l ++ [(k, 1)]

/-- Embedding of `themeDistribution[k]` (keys are always present when looked up). -/
def lookupDist (l : List (String × Nat)) (k : String) : Nat :=
  ((l.find? (fun p => p.1 == k)).map (fun p => p.2)).getD 0

/-- Mutable state of the `dialogue.forEach` loop in `analyzeTopics`. -/
structure TopicState where
  dist : List (String × Nat)
  evo : List EvoEntry
  segs : List KeySegment
deriving Repr, DecidableEq

/-- Body of the `analyzeTopics` loop.  `rng i k` models the `k`-th
`Math.random() * 100` drawn at time point `i` (the source's intensity is a
non-deterministic placeholder, so it is supplied as an oracle). -/
def topicStep (rng : Nat → Nat → ℚ) (dialogue : List Message) (st : TopicState)
    (i : Nat) (m : Message) : TopicState :=
  let detectedTopics := detectTopics m.content
  let dist' := detectedTopics.foldl (fun acc topic => bumpDist acc topic) st.dist
  let segs' :=
    if m.content.length > 50 then
      st.segs ++ detectedTopics.map (fun topic =>
        ⟨i, m.speaker, m.timestamp, topic, jsSubstringTo m.content 100 ++ "...", m.content⟩)
    else st.segs
  let evo' :=
    if i % 10 = 0 then
      let recentTopics := detectTopics
        (String.intercalate " "
          (((dialogue.drop (i - 10)).take (i + 1 - (i - 10))).map (fun x => x.content)))
      st.evo ++ (recentTopics.enum.map (fun p => ⟨i, p.2, rng i p.1 * 100⟩))
    else st.evo
  ⟨dist', evo', segs'⟩

/-- The `forEach` loop of `analyzeTopics` as an index-carrying recursion. -/
def topicLoop (rng : Nat → Nat → ℚ) (dialogue : List Message) :
    List Message → Nat → TopicState → TopicState
  | [], _, st => st
  | m :: rest, i, st => topicLoop rng dialogue rest (i + 1) (topicStep rng dialogue st i m)

/-- Worker for `analyzeThemeTransitions`, carrying the `lastTopic` variable
(`none` models the JS `null` start value). -/
def transLoop : List Message → Option String → List Transition → List Transition
  | [], _, acc => acc
  | m :: rest, lastTopic, acc =>
    let topics := detectTopics m.content
    let acc' :=
      match lastTopic with
      | none => acc
      | some lt =>
        if topics.length > 0 ∧ topics.headD "" ≠ lt then
          acc ++ [⟨lt, topics.headD "", 1, m.timestamp⟩]
        else acc
    transLoop rest topics.head? acc'

/-- Embedding of `analyzeThemeTransitions(dialogue)`. -/
def analyzeThemeTransitions (dialogue : List Message) : List Transition :=
  (transLoop dialogue none []).take 10

/-- Embedding of `analyzeTopics(dialogue)`; `rng` supplies the `Math.random()` draws used
only by the placeholder evolution intensities. -/
def analyzeTopics (rng : Nat → Nat → ℚ) (dialogue : List Message) : TopicsResult :=
  let st := topicLoop rng dialogue dialogue 0 ⟨[], [], []⟩
  let totalCount := (st.dist.map (fun p => p.2)).sum
  let pieData := st.dist.map (fun p =>
    (⟨p.1, p.2, jsToFixed1 ((p.2 : ℚ) / (totalCount : ℚ) * 100)⟩ : PieEntry))
  { themeDistribution := pieData
    themeEvolution := st.evo.take 20
    themeTransitions := analyzeThemeTransitions dialogue
    keySegments := st.segs.take 10
    summary :=
      { dominantTheme :=
          reduce1 (fun a b => if lookupDist st.dist a > lookupDist st.dist b then a else b)
            (st.dist.map (fun p => p.1))
        themeVariety := (st.dist.map (fun p => p.1)).length
        avgSegmentLength :=
          if st.segs.length > 0 then
            roundJs ((st.segs.map (fun s => (s.fullContent.length : ℚ))).sum /
              (st.segs.length : ℚ))
          else 0 } }

/-- One extracted key point. -/
structure KeyPoint where
  id : Nat
  content : String
  speaker : String
  timestamp : String
  importance : ℤ
  consensusLevel : ℤ
  intensity : ℤ
  evidence : List String
deriving Repr, DecidableEq, Inhabited

/-- One controversial-topic record. -/
structure ControversialTopic where
  topic : String
  stance : String
  speaker : String
  evidence : List String
deriving Repr, DecidableEq, Inhabited

/-- One consensus-point record. -/
structure ConsensusPoint where
  agreement : String
  consensusLevel : ℤ
  evidence : List String
deriving Repr, DecidableEq, Inhabited

/-- One evidence-reference record. -/
structure EvidenceRef where
  quote : String
  speaker : String
  timestamp : String
  relevance : ℚ
deriving Repr, DecidableEq, Inhabited

/-- One entry of the hard-coded influence analysis. -/
structure InfluenceEntry where
  topic : String
  influence : Nat
deriving Repr, DecidableEq, Inhabited

/-- Summary of `analyzeKeyPoints`. -/
structure KeyPointsSummary where
  totalKeyPoints : Nat
  avgConsensusLevel : ℚ
  dominantPosition : Option String
deriving Repr, DecidableEq

/-- Result object of `analyzeKeyPoints`. -/
structure KeyPointsResult where
  keyPoints : List KeyPoint
  controversialTopics : List ControversialTopic
  consensusPoints : List ConsensusPoint
  evidenceReferences : List EvidenceRef
  influenceAnalysis : List InfluenceEntry
  summary : KeyPointsSummary
deriving Repr, DecidableEq

/-- Mutable state of the `dialogue.forEach` loop in `analyzeKeyPoints`. -/
structure KPState where
  kps : List KeyPoint
  contro : List ControversialTopic
  cons : List ConsensusPoint
  evid : List EvidenceRef
deriving Repr, DecidableEq

/-- Body of the `analyzeKeyPoints` loop; the consensus level is computed
against the whole captured `dialogue`. -/
def kpStep (dialogue : List Message) (st : KPState) (i : Nat) (m : Message) : KPState :=
  let pointStrength := calculatePointStrength m.content
  if pointStrength > 7/10 ∨ m.content.length > 100 then
    let opinionScore := analyzeOpinionType m.content
    let consensusLevel := calculateConsensusLevel dialogue m.content
    let intensity := |analyzeSentimentScore m.content|
    let kps' := st.kps ++
      [⟨i, jsSubstringTo m.content 200 ++ (if m.content.length > 200 then "..." else ""),
        m.speaker, m.timestamp, roundJs (pointStrength * 100),
        roundJs (consensusLevel * 100), roundJs (intensity * 100), extractEvidence m.content⟩]
    let contro' :=
      if consensusLevel < 3/10 then
        st.contro ++ [⟨extractMainTopic m.content,
          if opinionScore > 0 then "支持" else "反对", m.speaker, [m.content]⟩]
      else st.contro
    let cons' :=
      if consensusLevel > 7/10 then
        st.cons ++ [⟨jsSubstringTo m.content 100 ++ "...",
          roundJs (consensusLevel * 100), [m.content]⟩]
      else st.cons
    let evid' :=
      if hasEvidence m.content then
        st.evid ++ [⟨m.content, m.speaker, m.timestamp, pointStrength⟩]
      else st.evid
    ⟨kps', contro', cons', evid'⟩
  else st

/-- The `forEach` loop of `analyzeKeyPoints` as an index-carrying recursion. -/
def kpLoop (dialogue : List Message) : List Message → Nat → KPState → KPState
  | [], _, st => st
  | m :: rest, i, st => kpLoop dialogue rest (i + 1) (kpStep dialogue st i m)

/-- Embedding of `findDominantPosition(keyPoints)`: majority vote over the three polarity
buckets, `Object.keys` reduce without initial value (the key list is the
constant three-element list, so the reduce never throws). -/
def findDominantPosition (keyPoints : List KeyPoint) : Option String :=
  let pos := keyPoints.countP (fun p => decide (analyzeOpinionType p.content > 0))
  let neg := keyPoints.countP (fun p => decide (analyzeOpinionType p.content < 0))
  let neu := keyPoints.countP (fun p =>
    decide (¬ analyzeOpinionType p.content > 0 ∧ ¬ analyzeOpinionType p.content < 0))
  let look := fun k =>
    if k = "positive" then pos else if k = "neutral" then neu else neg
  reduce1 (fun a b => if look a > look b then a else b) ["positive", "neutral", "negative"]

/-- Embedding of `analyzeInfluence(keyPoints)`: hard-coded constants in the source. -/
def analyzeInfluence (keyPoints : List KeyPoint) : List InfluenceEntry :=
  [⟨"技术方案", 88⟩, ⟨"时间安排", 75⟩, ⟨"资源分配", 82⟩]

/-- Embedding of `analyzeKeyPoints(dialogue)`. -/
def analyzeKeyPoints (dialogue : List Message) : KeyPointsResult :=
  let st := kpLoop dialogue dialogue 0 ⟨[], [], [], []⟩
  { keyPoints := (sortDescBy (fun p => p.importance) st.kps).take 15
    controversialTopics := st.contro.take 8
    consensusPoints := st.cons.take 6
    evidenceReferences := (sortDescBy (fun e => e.relevance) st.evid).take 10
    influenceAnalysis := analyzeInfluence st.kps
    summary :=
      { totalKeyPoints := st.kps.length
        avgConsensusLevel :=
          if st.kps.length > 0 then
            jsToFixed1 ((st.kps.map (fun p => (p.consensusLevel : ℚ))).sum /
              (st.kps.length : ℚ))
          else 0
        dominantPosition := findDominantPosition st.kps } }

theorem trendAux_map_sentiment (l : List Message) (i : Nat) :
    (trendAux l i).map (fun e => e.sentiment) = scoresOf l := by
  induction l generalizing i with
  | nil => rfl
  | cons x xs ih => simp [trendAux, scoresOf, ih]

/-- Claim C8 (confirmed): `analyzeSentiment` records a turning point at turn
`i > 0` exactly when `|score[i] - score[i-1]| > 0.5` (the filter in
`declTurningPoints`), each carrying impact `|score[i] - score[i-1]|`, a
direction label from the sign of `score[i]`, and a description embedding the
first 30 characters of turn `i`'s content (see `tpAt` and
`generateTurningPointEvent`); the returned list keeps the first 8 such points
in detection order, and the returned sentiment trend is the full trend
truncated to its first 50 entries. -/
theorem analyzeSentiment_turningPoints_spec (d : List Message) :
    (analyzeSentiment d).turningPoints = (declTurningPoints d).take 8 ∧
    (analyzeSentiment d).sentimentTrend = (fullTrend d).take 50 := by
  constructor
  · show (sentLoop d 0 ⟨[], 0, 0, 0, [], []⟩).tps.take 8 = _
    rw [sentLoop_eq_decl]
    rfl
  · show (sentLoop d 0 ⟨[], 0, 0, 0, [], []⟩).trend.take 50 = _
    rw [sentLoop_eq_decl]
    rfl

/-- The concrete two-turn, all-negative, zero-variance conversation used to
separate the code's health-score formula from the specified one. -/
def negDialogue : List Message :=
  [⟨"A", "问题 困难", "t1"⟩, ⟨"B", "问题 困难", "t2"⟩]

/-- Modelled from the spec: the health-score formula exactly as §4.2 of the
spec words it — `clamp(0, 100, 100 * (0.4*positivityRatio +
0.3*(1-negativityRatio) + 0.3*(1-emotionalVariance)))` — for comparison with
the code's computation (`none` for the empty conversation, as in the code). -/
def specHealthScore (d : List Message) : Option ℚ :=
  if d.length = 0 then none
  else
    let p := (posCount d : ℚ) / (d.length : ℚ)
    let n := (negCount d : ℚ) / (d.length : ℚ)
    let v := calculateEmotionalVariance (scoresOf d)
    some (max 0 (min 100 (100 * ((4/10) * p + (3/10) * (1 - n) + (3/10) * (1 - v)))))

/-- The health score returned by `analyzeSentiment` in closed form, for
non-empty conversations. -/
theorem healthScore_formula_aux (d : List Message) (h : d ≠ []) :
    (analyzeSentiment d).healthScore =
      some (roundJs (max 0 (min 100
        ((((posCount d : ℚ) / (d.length : ℚ)) * 40 +
          (1 - (negCount d : ℚ) / (d.length : ℚ)) * 30 +
          (1 - calculateEmotionalVariance (scoresOf d)) * 30) * 100)))) := by
  have hlen : ¬ d.length = 0 := fun hc => h (List.length_eq_zero.mp hc)
  show (Option.map roundJs
    (if d.length = 0 then none
     else
      some (max 0 (min 100
        ((((sentLoop d 0 ⟨[], 0, 0, 0, [], []⟩).pos : ℚ) / (d.length : ℚ) * 40 +
          (1 - ((sentLoop d 0 ⟨[], 0, 0, 0, [], []⟩).neg : ℚ) / (d.length : ℚ)) * 30 +
          (1 - calculateEmotionalVariance
            (((sentLoop d 0 ⟨[], 0, 0, 0, [], []⟩).trend).map (fun e => e.sentiment))) * 30)
          * 100))))) = _
  rw [sentLoop_eq_decl]
  rw [if_neg hlen]
  show some (roundJs _) = _
  rw [show (declSentState d).trend.map (fun e => e.sentiment) = scoresOf d from
    trendAux_map_sentiment d 0]
  rfl

/-- Claim C4 as amended: for every non-empty conversation the returned health
score is the rounding of
`clamp(0, 100, (positivityRatio*40 + (1-negativityRatio)*30 +
(1-emotionalVariance)*30) * 100)` — i.e. 100 times the spec's inner weighted
sum — with the ratios the fractions of turns classified positive resp.
negative and the variance term `min(1, population variance)` of the per-turn
scores. -/
theorem healthScore_formula (d : List Message) (h : d ≠ []) :
    (analyzeSentiment d).healthScore =
      some (roundJs (max 0 (min 100
        ((((posCount d : ℚ) / (d.length : ℚ)) * 40 +
          (1 - (negCount d : ℚ) / (d.length : ℚ)) * 30 +
          (1 - calculateEmotionalVariance (scoresOf d)) * 30) * 100)))) :=
  healthScore_formula_aux d h

/-- Witness for the amended claim C4 at the concrete non-empty conversation
`negDialogue`. -/
theorem healthScore_formula_witness :
    negDialogue ≠ [] ∧
    (analyzeSentiment negDialogue).healthScore =
      some (roundJs (max 0 (min 100
        ((((posCount negDialogue : ℚ) / (negDialogue.length : ℚ)) * 40 +
          (1 - (negCount negDialogue : ℚ) / (negDialogue.length : ℚ)) * 30 +
          (1 - calculateEmotionalVariance (scoresOf negDialogue)) * 30) * 100)))) :=
  ⟨by decide, healthScore_formula negDialogue (by decide)⟩

/-- The score of the all-negative test turn. -/
theorem score_negMsg : analyzeSentimentScore "问题 困难" = -(3/5) := by
  rw [sentimentScore_eq_clamp]
  have hp : posMatchCount "问题 困难" = 0 := by decide
  have hn : negMatchCount "问题 困难" = 2 := by decide
  rw [hp, hn]
  norm_num [min_def, max_def]

theorem posCount_negDialogue : posCount negDialogue = 0 := by
  have h : ¬ ((-(3/5) : ℚ) > 3/10) := by norm_num
  simp [posCount, negDialogue, List.countP_cons, List.countP_nil, score_negMsg, h]

theorem negCount_negDialogue : negCount negDialogue = 2 := by
  have h : (-(3/5) : ℚ) < -(3/10) := by norm_num
  simp [negCount, negDialogue, List.countP_cons, List.countP_nil, score_negMsg, h]

theorem scoresOf_negDialogue : scoresOf negDialogue = [-(3/5), -(3/5)] := by
  simp [scoresOf, negDialogue, score_negMsg]

theorem variance_negDialogue : calculateEmotionalVariance (scoresOf negDialogue) = 0 := by
  rw [scoresOf_negDialogue]
  norm_num [calculateEmotionalVariance, List.sum_cons, List.sum_nil, List.map_cons,
    List.map_nil, min_def]

/-- Counterexample for claim C4: on `negDialogue` (both turns score `-0.6`,
so positivity 0, negativity 1, variance 0) the code returns health score
`100` — the source multiplies the already-percentage-scaled sum
`(p*40 + (1-n)*30 + (1-v)*30)` by a further `100` before clamping — while the
claimed formula yields `30`. -/
theorem healthScore_counterexample :
    (analyzeSentiment negDialogue).healthScore = some 100 ∧
    specHealthScore negDialogue = some 30 ∧
    (analyzeSentiment negDialogue).healthScore ≠ some 30 := by
  have h1 : (analyzeSentiment negDialogue).healthScore = some 100 := by
    rw [healthScore_formula_aux negDialogue (by decide)]
    rw [posCount_negDialogue, negCount_negDialogue, variance_negDialogue]
    have hv : (max 0 (min 100 ((((0 : Nat) : ℚ) / ((negDialogue.length : Nat) : ℚ) * 40 +
        (1 - ((2 : Nat) : ℚ) / ((negDialogue.length : Nat) : ℚ)) * 30 +
        (1 - 0) * 30) * 100))) = 100 := by
      norm_num [negDialogue, min_def, max_def]
    rw [hv]
    have hr : roundJs 100 = 100 := by
      unfold roundJs
      rw [Int.floor_eq_iff] <;> norm_num
    rw [hr]
  refine ⟨h1, ?_, by rw [h1]; decide⟩
  unfold specHealthScore
  rw [if_neg (by norm_num [negDialogue])]
  rw [posCount_negDialogue, negCount_negDialogue, variance_negDialogue]
  norm_num [negDialogue, min_def, max_def]

/-- Claim C1 (code bug): on the empty conversation the sentiment distribution
counts are all zero and there are no turning points, no trend entries and no
key points — but the health score is JS `NaN` (the positivity and negativity
ratios divide the zero counts by the zero `totalMessages`), modelled as
`none`, rather than a defined neutral number, and `analyzeTopics` throws a
`TypeError` (`Object.keys({}).reduce` with no initial value) while computing
the dominant theme, modelled as `dominantTheme = none`. -/
theorem empty_conversation_behavior (rng : Nat → Nat → ℚ) :
    (analyzeTopics rng []).themeDistribution = [] ∧
    (analyzeTopics rng []).summary.dominantTheme = none ∧
    (analyzeSentiment []).sentimentDistribution =
      [⟨"积极", 0, "#4caf50"⟩, ⟨"中性", 0, "#ff9800"⟩, ⟨"消极", 0, "#f44336"⟩] ∧
    (analyzeSentiment []).healthScore = none ∧
    (analyzeSentiment []).turningPoints = [] ∧
    (analyzeSentiment []).sentimentTrend = [] ∧
    (analyzeKeyPoints []).keyPoints = [] :=
  ⟨rfl, rfl, rfl, rfl, rfl, rfl, rfl⟩

/-- A turn record in which any of the three fields may be absent (JS
`undefined`). -/
structure MessageOpt where
  speaker : Option String
  content : Option String
  timestamp : Option String
deriving Repr, DecidableEq

/-- Destructuring `{ speaker, content, timestamp }` and first use of the
fields: a missing `content` makes every analysis loop call a string method on
`undefined` (`content.includes(...)` in `detectTopics`,
`content.toLowerCase()` in `analyzeSentimentScore`), which throws a
`TypeError`; a missing `speaker` never throws — it is only used as an object
key (coerced to the string key `"undefined"`). -/
def toMessageChecked (m : MessageOpt) : Except String Message :=
  match m.content with
  | none => Except.error "TypeError: content is undefined"
  | some c => Except.ok ⟨m.speaker.getD "undefined", c, m.timestamp.getD "undefined"⟩

/-- Embedding of `analyzeTopics` over turns with possibly-missing fields: the `forEach`
throws at the first turn whose `content` is `undefined`, otherwise it behaves
as on the checked turns. -/
def analyzeTopicsChecked (rng : Nat → Nat → ℚ) (dialogue : List MessageOpt) :
    Except String TopicsResult :=
  (dialogue.mapM toMessageChecked).map (analyzeTopics rng)

/-- Claim C5 (code bug): a turn with a missing `content` field is not treated
as the empty string — the analysis aborts with a `TypeError` — while the very
same turn with `content` present as `""` (and its `speaker` missing) is
analysed to completion. -/
theorem missing_content_aborts (rng : Nat → Nat → ℚ) :
    analyzeTopicsChecked rng [⟨some "A", none, some "t"⟩] =
      Except.error "TypeError: content is undefined" ∧
    analyzeTopicsChecked rng [⟨none, some "", some "t"⟩] =
      Except.ok (analyzeTopics rng [⟨"undefined", "", "t"⟩]) :=
  ⟨rfl, rfl⟩

/-- Every turn of a dialogue has consensus level at least `1/3`: the filter in
`calculateConsensusLevel` runs over the whole dialogue, and the turn's
similarity to its own content is `1 > 0.6`. -/
theorem consensus_ge_third (d : List Message) (m : Message) (hm : m ∈ d) :
    1/3 ≤ calculateConsensusLevel d m.content := by
  unfold calculateConsensusLevel
  have hmem : m ∈ d.filter
      (fun msg => decide (calculateSimilarity msg.content m.content > 3/5)) := by
    apply List.mem_filter.mpr
    refine ⟨hm, ?_⟩
    rw [decide_eq_true_eq, calculateSimilarity_self]
    norm_num
  have hlen : 1 ≤ (d.filter
      (fun msg => decide (calculateSimilarity msg.content m.content > 3/5))).length :=
    Nat.succ_le_of_lt (List.length_pos.mpr (List.ne_nil_of_mem hmem))
  apply le_min
  · norm_num
  · have hcast : (1 : ℚ) ≤ ((d.filter
        (fun msg => decide (calculateSimilarity msg.content m.content > 3/5))).length : ℚ) := by
      exact_mod_cast hlen
    linarith

/-- The controversial-topics accumulator of the `analyzeKeyPoints` loop stays
empty: every processed turn belongs to the dialogue, so its consensus level is
at least `1/3 > 0.3`. -/
theorem kpLoop_contro_nil (d : List Message) (rest : List Message) :
    ∀ (i : Nat) (st : KPState), (∀ m ∈ rest, m ∈ d) → st.contro = [] →
      (kpLoop d rest i st).contro = [] := by
  induction rest with
  | nil => intro i st _ h; exact h
  | cons m rest ih =>
    intro i st hmem h
    show (kpLoop d rest (i + 1) (kpStep d st i m)).contro = []
    apply ih
    · exact fun x hx => hmem x (List.mem_cons_of_mem m hx)
    · unfold kpStep
      by_cases hq : calculatePointStrength m.content > 7/10 ∨ m.content.length > 100
      · rw [if_pos hq]
        have hge := consensus_ge_third d m (hmem m (List.mem_cons_self m rest))
        have hc : ¬ calculateConsensusLevel d m.content < 3/10 := by
          intro hlt
          linarith
        show (if calculateConsensusLevel d m.content < 3/10 then _ else st.contro) = []
        rw [if_neg hc]
        exact h
      · rw [if_neg hq]
        exact h

/-- The controversial-topics list of `analyzeKeyPoints` is empty for every
input conversation. -/
theorem controversialTopics_nil (d : List Message) :
    (analyzeKeyPoints d).controversialTopics = [] := by
  show (kpLoop d d 0 ⟨[], [], [], []⟩).contro.take 8 = []
  rw [kpLoop_contro_nil d d 0 ⟨[], [], [], []⟩ (fun _ hx => hx) rfl]
  rfl

/-- Claim C3 (confirmed): for every conversation and every turn in it the
consensus level is at least `1/3` — the similar-turn filter includes the
candidate turn itself, whose self-similarity is `1 > 0.6` — so no qualifying
turn's consensus level is ever below `0.3`, and the controversial-topics list
returned by `analyzeKeyPoints` is empty for every input conversation. -/
theorem consensus_floor_and_no_controversy :
    (∀ (d : List Message) (i : Fin d.length),
      1/3 ≤ calculateConsensusLevel d (d.get i).content) ∧
    (∀ d : List Message, (analyzeKeyPoints d).controversialTopics = []) :=
  ⟨fun d i => consensus_ge_third d (d.get i) (d.get_mem i.1 i.2),
   fun d => controversialTopics_nil d⟩

theorem countP_eq_one_of_unique {α : Type} :
    ∀ (l : List α) (p : α → Bool) (i : Nat) (hi : i < l.length),
      p (l.get ⟨i, hi⟩) = true →
      (∀ (j : Nat) (hj : j < l.length), j ≠ i → p (l.get ⟨j, hj⟩) = false) →
      l.countP p = 1 := by
  intro l
  induction l with
  | nil => intro p i hi; simp at hi
  | cons x xs ih =>
    intro p i hi hp hq
    cases i with
    | zero =>
      have hx : p x = true := hp
      have hxs : List.countP p xs = 0 := by
        rw [List.countP_eq_zero]
        intro a ha
        obtain ⟨⟨j, hj⟩, hja⟩ := List.mem_iff_get.mp ha
        rw [← hja]
        have := hq (j + 1) (by simpa using Nat.succ_lt_succ hj) (by omega)
        simpa using this
      rw [List.countP_cons, hxs, hx]
      simp
    | succ j =>
      have hx : p x = false := hq 0 (by simp) (by omega)
      have h1 : List.countP p xs = 1 := by
        refine ih p j (by simpa using Nat.lt_of_succ_lt_succ hi) hp ?_
        intro k hk hkj
        exact hq (k + 1) (by simpa using Nat.succ_lt_succ hk) (by omega)
      rw [List.countP_cons, h1, hx]
      simp

/-- Counterexample for claim C2: a single-turn conversation whose turn
qualifies as a key point (length `101 > 100`) and vacuously has no similar
counterpart; its consensus level is `1/3`, not below `0.3` as the claim
requires, and `analyzeKeyPoints` records no controversial topic. -/
def longMsg : Message :=
  ⟨"A", String.mk (List.replicate 101 'a'), "t0"⟩

theorem consensus_no_counterpart_counterexample :
    longMsg.content.length > 100 ∧
    calculateConsensusLevel [longMsg] longMsg.content = 1/3 ∧
    ¬ calculateConsensusLevel [longMsg] longMsg.content < 3/10 ∧
    (analyzeKeyPoints [longMsg]).controversialTopics = [] := by
  have hcl : calculateConsensusLevel [longMsg] longMsg.content = 1/3 := by
    unfold calculateConsensusLevel
    have hf : [longMsg].filter
        (fun msg => decide (calculateSimilarity msg.content longMsg.content > 3/5)) =
        [longMsg] := by
      simp only [List.filter_cons, List.filter_nil, calculateSimilarity_self]
      norm_num
    rw [hf]
    norm_num [min_def]
  exact ⟨by decide, hcl, by rw [hcl]; norm_num, controversialTopics_nil [longMsg]⟩

/-- Claim C2 as amended: for a qualifying turn with no similar counterpart
among the other turns, the consensus level is exactly `1/3` (only the turn
itself passes the similarity filter), which is not below `0.3`, and the
controversial-topics list of `analyzeKeyPoints` stays empty. -/
theorem consensus_no_counterpart (d : List Message) (i : Fin d.length)
    (hq : calculatePointStrength (d.get i).content > 7/10 ∨ (d.get i).content.length > 100)
    (hsim : ∀ j : Fin d.length, j ≠ i →
      calculateSimilarity (d.get j).content (d.get i).content ≤ 3/5) :
    calculateConsensusLevel d (d.get i).content = 1/3 ∧
    (analyzeKeyPoints d).controversialTopics = [] := by
  refine ⟨?_, controversialTopics_nil d⟩
  unfold calculateConsensusLevel
  have hcount : (d.filter
      (fun msg => decide (calculateSimilarity msg.content (d.get i).content > 3/5))).length
      = 1 := by
    rw [← List.countP_eq_length_filter]
    refine countP_eq_one_of_unique d _ i.1 i.2 ?_ ?_
    · rw [decide_eq_true_eq]
      rw [show d.get ⟨i.1, i.2⟩ = d.get i from by rw [Fin.eta]]
      rw [calculateSimilarity_self]
      norm_num
    · intro j hj hji
      rw [decide_eq_false_iff_not, not_lt]
      exact hsim ⟨j, hj⟩ (by simpa [Fin.ext_iff] using hji)
  show min 1 (((d.filter
      (fun msg => decide (calculateSimilarity msg.content (d.get i).content > 3/5))).length : ℚ)
      / 3) = 1/3
  rw [hcount]
  norm_num [min_def]

/-- Witness for the amended claim C2 at the concrete single-turn
conversation. -/
theorem consensus_no_counterpart_witness :
    calculateConsensusLevel [longMsg] (([longMsg] : List Message).get ⟨0, by decide⟩).content
      = 1/3 ∧
    (analyzeKeyPoints [longMsg]).controversialTopics = [] := by
  refine consensus_no_counterpart [longMsg] ⟨0, by decide⟩ (Or.inr (by decide)) ?_
  intro j hj
  exfalso
  apply hj
  apply Fin.ext
  have h1 : j.1 < 1 := by simpa using j.2
  show j.1 = 0
  omega

theorem foldl_pushIf {α β : Type} (p : α → Bool) (f : α → β) :
    ∀ (l : List α) (acc : List β),
      l.foldl (fun acc x => if p x then acc ++ [f x] else acc) acc =
        acc ++ (l.filter p).map f := by
  intro l
  induction l with
  | nil => intro acc; simp
  | cons x xs ih =>
    intro acc
    show xs.foldl _ (if p x then acc ++ [f x] else acc) = _
    by_cases h : p x
    · simp [h, ih, List.filter_cons, List.append_assoc]
    · simp [h, ih, List.filter_cons]

/-- Claim C9 (confirmed): `detectTopics` returns exactly the topic categories
one of whose trigger phrases is a substring of the text (in lexicon order,
several categories may co-occur), and when no category's trigger phrase
occurs it returns exactly the singleton fallback `["一般讨论"]` ("general
discussion"). -/
theorem detectTopics_spec (content : String) :
    ((∃ p ∈ topicPatterns, p.2.any (fun pat => jsIncludes content pat) = true) →
      detectTopics content =
        (topicPatterns.filter (fun p => p.2.any (fun pat => jsIncludes content pat))).map
          (fun p => p.1)) ∧
    ((∀ p ∈ topicPatterns, ∀ pat ∈ p.2, jsIncludes content pat = false) →
      detectTopics content = ["一般讨论"]) := by
  have hd : detectTopics content =
      if 0 < ((topicPatterns.filter
          (fun p => p.2.any (fun pat => jsIncludes content pat))).map (fun p => p.1)).length
      then (topicPatterns.filter
          (fun p => p.2.any (fun pat => jsIncludes content pat))).map (fun p => p.1)
      else ["一般讨论"] := by
    unfold detectTopics
    rw [foldl_pushIf]
    simp
  constructor
  · rintro ⟨p, hp, hmatch⟩
    rw [hd, if_pos]
    have hmem : p ∈ topicPatterns.filter
        (fun p => p.2.any (fun pat => jsIncludes content pat)) :=
      List.mem_filter.mpr ⟨hp, hmatch⟩
    simpa using List.length_pos.mpr (List.ne_nil_of_mem hmem)
  · intro hnone
    rw [hd, if_neg]
    have hfe : topicPatterns.filter
        (fun p => p.2.any (fun pat => jsIncludes content pat)) = [] := by
      rw [List.filter_eq_nil]
      intro p hp
      simp only [List.any_eq_true, not_exists, not_and]
      intro pat hpat
      simp [hnone p hp pat hpat]
    simp [hfe]

/-- Witness for claim C9: the text `"项目"` hits the business-topic lexicon,
and the text `"hello"` matches no trigger phrase and falls back. -/
theorem detectTopics_spec_witness :
    ((∃ p ∈ topicPatterns, p.2.any (fun pat => jsIncludes "项目" pat) = true) ∧
      detectTopics "项目" =
        (topicPatterns.filter (fun p => p.2.any (fun pat => jsIncludes "项目" pat))).map
          (fun p => p.1)) ∧
    ((∀ p ∈ topicPatterns, ∀ pat ∈ p.2, jsIncludes "hello" pat = false) ∧
      detectTopics "hello" = ["一般讨论"]) :=
  ⟨⟨by decide, (detectTopics_spec "项目").1 (by decide)⟩,
   ⟨by decide, (detectTopics_spec "hello").2 (by decide)⟩⟩
